import Mathlib

/-!
Shallow embedding of the Daily-Session Statistics Engine of
`trading_journal_analysis` (class `EsPriceAnalysis` in `helper/ES_analysis.py`).

Modelling conventions:
* a pandas row of the sheet is a `Row`; a nullable cell is an `Option`;
* Python float arithmetic is modelled by exact rational arithmetic (`ℚ`);
* times of day are modelled as minutes after midnight (`ℕ`);
* a Python computation that raises (`ZeroDivisionError` in `__calc_cpf`
  when the data list is empty, `ValueError` in `max` of an empty list)
  is modelled by `Option`, with `none` for the raised exception;
* `numpy.mean` of an empty array, which yields `NaN`, is modelled by `none`.
-/

namespace ES

/-- One row of the sheet loaded by `query_data`.
Fields map one-to-one to the columns consumed by the analyzers:
`Rebound 1  08:30-11`, `Rebound 2 08:30-11`, `Pt deep rebound`,
`No perfect rebound`, `Trend since 8:30`, `ES & PP`, `New trend`,
`Hour trend change`, `Max Range 8:30 - 13`. -/
structure Row where
  firstRebound : Option String := none
  secondRebound : Option String := none
  ptDeepRebound : Option ℚ := none
  noPerfectRebound : Option String := none
  trend : Option ℤ := none
  esPP : Option ℤ := none
  newTrend : Option ℤ := none
  hourChange : Option ℕ := none
  maxRange : ℚ := 0
  deriving Repr, DecidableEq, Inhabited

/-- Row indexes (pandas `df[...].index.tolist()`) of the rows of `t`
satisfying the predicate `p`. -/
def rowsWhere (t : List Row) (p : Row → Bool) : List ℕ :=
  (List.range t.length).filter (fun i => p (t.getD i default))

/-- Number of elements of Python `range(a, b, step)` for a positive `step`. -/
def pyRangeLen (a b step : ℤ) : ℕ :=
  if a < b ∧ 0 < step then (b - a - 1).toNat / step.toNat + 1 else 0

/-- Python `range(a, b, step)` (for the positive steps the source uses). -/
def pyRange (a b step : ℤ) : List ℤ :=
  (List.range (pyRangeLen a b step)).map (fun (k : ℕ) => a + step * (k : ℤ))

/-- `sum(i <= x for i in data)` of `__calc_cpf`. -/
def countLE (data : List ℚ) (x : ℤ) : ℕ :=
  data.countP (fun i => decide (i ≤ (x : ℚ)))

/-- Result of `__calc_cpf`: the dictionary `{"cpf": cpf, "x": x_cpf}`. -/
structure Cpf where
  x : List ℤ
  cpf : List ℚ
  deriving Repr, DecidableEq

/-- `EsPriceAnalysis.__calc_cpf(data, bin_max, bin_span)`.
`x_cpf = [p for p in range(bin_span, bin_max, bin_span)] + [bin_max]` and
`cpf` pairs each threshold with `100. * sum(i <= x for i in data) / n`.
Since `x_cpf` is never empty, the division is always executed, so the
call raises `ZeroDivisionError` (here: `none`) exactly when `data` is empty. -/
def calc_cpf (data : List ℚ) (bin_max bin_span : ℤ) : Option Cpf :=
  if data.isEmpty then none
  else
    let x := pyRange bin_span bin_max bin_span ++ [bin_max]
    some ⟨x, x.map (fun xx => 100 * (countLE data xx : ℚ) / (data.length : ℚ))⟩

/-- The hardcoded member `__x_cpf_time`: 09:30 to 15:00 in 30-minute steps,
as minutes after midnight. -/
def x_cpf_time : List ℕ :=
  [570, 600, 630, 660, 690, 720, 750, 780, 810, 840, 870, 900]

/-- `EsPriceAnalysis.__calc_cpf_time(data)`: same division against the fixed
time thresholds; raises (`none`) exactly when `data` is empty. -/
def calc_cpf_time (data : List ℕ) : Option (List ℚ) :=
  if data.isEmpty then none
  else
    some (x_cpf_time.map
      (fun xx => 100 * (data.countP (fun i => decide (i ≤ xx)) : ℚ) / (data.length : ℚ)))

/-- Python `int(q)`: truncation toward zero. -/
def truncToZero (q : ℚ) : ℤ :=
  if 0 ≤ q then ⌊q⌋ else ⌈q⌉

/-- `EsPriceAnalysis.__round(n) = int(n * 10) / 10` with
`__FACTOR_ROUND = 10`. -/
def es_round (n : ℚ) : ℚ :=
  (truncToZero (n * 10) : ℚ) / 10

/-- `numpy.mean`, with `none` standing for the `NaN` produced on an
empty array. -/
def np_mean (l : List ℚ) : Option ℚ :=
  if l.isEmpty then none else some (l.sum / (l.length : ℚ))


/-! ### `__analyze_pivot_points`: row-index sets and value lists -/

/-- `rows_first_rebound`: indexes with a non-null `Rebound 1  08:30-11` cell. -/
def rows_first_rebound (t : List Row) : List ℕ :=
  rowsWhere t (fun r => r.firstRebound.isSome)

/-- `rows_second_rebound`: indexes with a non-null `Rebound 2 08:30-11` cell. -/
def rows_second_rebound (t : List Row) : List ℕ :=
  rowsWhere t (fun r => r.secondRebound.isSome)

/-- `rows_perfect_rebound = rows_first_rebound + rows_second_rebound`. -/
def rows_perfect_rebound (t : List Row) : List ℕ :=
  rows_first_rebound t ++ rows_second_rebound t

/-- `rows_deep_rebound`: indexes with a non-null `Pt deep rebound` cell. -/
def rows_deep_rebound (t : List Row) : List ℕ :=
  rowsWhere t (fun r => r.ptDeepRebound.isSome)

/-- `rows_no_perfect_rebound`: indexes with a non-null `No perfect rebound` cell. -/
def rows_no_perfect_rebound (t : List Row) : List ℕ :=
  rowsWhere t (fun r => r.noPerfectRebound.isSome)

/-- `rows_no_rebound = [i for i in rows_no_perfect_rebound if i not in rows_deep_rebound]`. -/
def rows_no_rebound (t : List Row) : List ℕ :=
  (rows_no_perfect_rebound t).filter (fun i => !((rows_deep_rebound t).contains i))

/-- `point_perfect_rebound`: the level cells of the first- and second-rebound rows. -/
def point_perfect_rebound (t : List Row) : List (Option String) :=
  (rows_first_rebound t).map (fun i => (t.getD i default).firstRebound)
  ++ (rows_second_rebound t).map (fun i => (t.getD i default).secondRebound)

/-- `point_deep_rebound`: the `No perfect rebound` level cells of the deep-rebound rows. -/
def point_deep_rebound (t : List Row) : List (Option String) :=
  (rows_deep_rebound t).map (fun i => (t.getD i default).noPerfectRebound)

/-- `point_no_rebound`: the `No perfect rebound` level cells of the no-rebound rows. -/
def point_no_rebound (t : List Row) : List (Option String) :=
  (rows_no_rebound t).map (fun i => (t.getD i default).noPerfectRebound)

/-- `pt_deep_rebound`: the deep-rebound overshoot distances. -/
def pt_deep_rebound (t : List Row) : List ℚ :=
  (rows_deep_rebound t).map (fun i => ((t.getD i default).ptDeepRebound).getD 0)

/-- `pt_deep_rebound_pivot` / `_support` / `_resistance`: overshoot distances of
the deep-rebound rows whose `No perfect rebound` cell equals `lvl`. -/
def pt_deep_rebound_point (t : List Row) (lvl : String) : List ℚ :=
  ((rows_deep_rebound t).filter
      (fun i => (t.getD i default).noPerfectRebound == some lvl)).map
    (fun i => ((t.getD i default).ptDeepRebound).getD 0)

/-- `EsPriceAnalysis.__count_point`: occurrences of a level in a cell list. -/
def count_point (point : String) (lst : List (Option String)) : ℕ :=
  lst.count (some point)

/-- `stats_pivot_points["General"]["count perfect rebound"]`. -/
def count_perfect_rebound (t : List Row) : ℕ := (rows_perfect_rebound t).length

/-- `stats_pivot_points["General"]["count deep rebound"]`. -/
def count_deep_rebound (t : List Row) : ℕ := (rows_deep_rebound t).length

/-- `stats_pivot_points["General"]["count rebound"]`. -/
def count_rebound (t : List Row) : ℕ := count_perfect_rebound t + count_deep_rebound t

/-- `stats_pivot_points["General"]["count no rebound"]`. -/
def count_no_rebound (t : List Row) : ℕ := (rows_no_rebound t).length

/-- `stats_pivot_points["General"]["count points"]`. -/
def count_points (t : List Row) : ℕ := count_rebound t + count_no_rebound t

/-- `count_<lvl>_total`, e.g. `count_pp_total = count_pp_perfect_rebound +
count_pp_deep_rebound + count_pp_no_rebound`. -/
def count_total_at (t : List Row) (lvl : String) : ℕ :=
  count_point lvl (point_perfect_rebound t) + count_point lvl (point_deep_rebound t)
    + count_point lvl (point_no_rebound t)

/-- `stats_pivot_points[<level>]["pct point"] = 100. * count_<lvl>_total / count_points`. -/
def pct_point_at (t : List Row) (lvl : String) : ℚ :=
  100 * (count_total_at t lvl : ℚ) / (count_points t : ℚ)

/-- `stats_pivot_points[<level>]["pct <lvl> perfect rebound"] =
100. * count_<lvl>_perfect_rebound / count_perfect_rebound`. -/
def pct_level_perfect_rebound (t : List Row) (lvl : String) : ℚ :=
  100 * (count_point lvl (point_perfect_rebound t) : ℚ) / (count_perfect_rebound t : ℚ)

/-- `stats_pivot_points[<level>]["pct <lvl> deep rebound"] =
100. * count_<lvl>_deep_rebound / count_deep_rebound`. -/
def pct_level_deep_rebound (t : List Row) (lvl : String) : ℚ :=
  100 * (count_point lvl (point_deep_rebound t) : ℚ) / (count_deep_rebound t : ℚ)

/-- `stats_pivot_points[<level>]["pct <lvl> no rebound"] =
100. * count_<lvl>_no_rebound / count_no_rebound`. -/
def pct_level_no_rebound (t : List Row) (lvl : String) : ℚ :=
  100 * (count_point lvl (point_no_rebound t) : ℚ) / (count_no_rebound t : ℚ)

/-! ### `__analyze_pivot_points`: day-level index sets -/

/-- `days_with_rebound = list(set(days_with_perfect_rebound + days_with_deep_rebound))`
where `days_with_perfect_rebound = rows_first_rebound`. -/
def days_with_rebound (t : List Row) : List ℕ :=
  (rows_first_rebound t ++ rows_deep_rebound t).dedup

/-- `days_with_demark = list(set(days_with_rebound + days_with_no_rebound))`. -/
def days_with_demark (t : List Row) : List ℕ :=
  (days_with_rebound t ++ rows_no_rebound t).dedup

/-- `days_with_no_demark = [i for i in range(total_days) if i not in days_with_demark]`. -/
def days_with_no_demark (t : List Row) : List ℕ :=
  (List.range t.length).filter (fun i => !((days_with_demark t).contains i))

/-- `stats_pivot_points["General"]["pct days with demark"]`. -/
def pct_days_with_demark (t : List Row) : ℚ :=
  100 * ((days_with_demark t).length : ℚ) / (t.length : ℚ)

/-- `stats_pivot_points["General"]["pct days no demark"]`. -/
def pct_days_no_demark (t : List Row) : ℚ :=
  100 * ((days_with_no_demark t).length : ℚ) / (t.length : ℚ)

/-! ### `__analyze_pivot_points`: deep-rebound distribution (mean and CPF) -/

/-- `stats_deep_rebound["Resistance"]["mean"] = np.mean(pt_deep_rebound_resistance)`. -/
def deep_rebound_mean_resistance (t : List Row) : Option ℚ :=
  np_mean (pt_deep_rebound_point t "R")

/-- `cdf_deep_rebound_resistance =
__calc_cpf(pt_deep_rebound_resistance, int(max(pt_deep_rebound)))` with the
default `bin_span = 2`; `max` of an empty list raises (`none`). -/
def cdf_deep_rebound_resistance (t : List Row) : Option Cpf :=
  (pt_deep_rebound t).max?.bind
    (fun m => calc_cpf (pt_deep_rebound_point t "R") (truncToZero m) 2)

/-! ### `__analyze_reversal_each_trend` -/

/-- `es_uptrend_df = es_price_df[es_price_df["Trend since 8:30"] == 1]`. -/
def es_uptrend_df (t : List Row) : List Row :=
  t.filter (fun r => r.trend == some 1)

/-- `es_downtrend_df = es_price_df[es_price_df["Trend since 8:30"] == -1]`. -/
def es_downtrend_df (t : List Row) : List Row :=
  t.filter (fun r => r.trend == some (-1))

/-- `es_range_df = es_price_df[es_price_df["Trend since 8:30"] == 0]`. -/
def es_range_df (t : List Row) : List Row :=
  t.filter (fun r => r.trend == some 0)

/-- `es_uptrend_then_reversal_df = es_uptrend_df[es_uptrend_df["Hour trend change"].notnull()]`. -/
def es_uptrend_then_reversal_df (t : List Row) : List Row :=
  (es_uptrend_df t).filter (fun r => r.hourChange.isSome)

/-- `es_downtrend_then_reversal_df`, filtered the same way. -/
def es_downtrend_then_reversal_df (t : List Row) : List Row :=
  (es_downtrend_df t).filter (fun r => r.hourChange.isSome)

/-- `es_range_then_reversal_df`, filtered the same way. -/
def es_range_then_reversal_df (t : List Row) : List Row :=
  (es_range_df t).filter (fun r => r.hourChange.isSome)

/-- `stats_reversal["uptrend day"]["% with reversal*"]`. -/
def pct_uptrend_with_reversal (t : List Row) : ℚ :=
  100 * ((es_uptrend_then_reversal_df t).length : ℚ) / ((es_uptrend_df t).length : ℚ)

/-- `stats_reversal["downtrend day"]["% with reversal*"]`. -/
def pct_downtrend_with_reversal (t : List Row) : ℚ :=
  100 * ((es_downtrend_then_reversal_df t).length : ℚ) / ((es_downtrend_df t).length : ℚ)

/-- `stats_reversal["range day"]["% with reversal*"]`. -/
def pct_range_with_reversal (t : List Row) : ℚ :=
  100 * ((es_range_then_reversal_df t).length : ℚ) / ((es_range_df t).length : ℚ)

/-- `range_then_reversal_es_lower_pp`: range-day reversal rows whose
`ES & PP` code is 0 or 2. -/
def range_then_reversal_es_lower_pp (t : List Row) : List Row :=
  (es_range_then_reversal_df t).filter (fun r => r.esPP == some 0 || r.esPP == some 2)

/-- `stats_reversal["range day"]["% reversal when ES<PP at 8:30am**"]`: the
source divides by `len(es_downtrend_then_reversal_df.index)` (the downtrend
reversal cohort), not by the range-day reversal cohort. -/
def pct_range_reversal_lower_pp (t : List Row) : ℚ :=
  100 * ((range_then_reversal_es_lower_pp t).length : ℚ)
    / ((es_downtrend_then_reversal_df t).length : ℚ)

/-! ### `__analyze_range` (trading-range-day block) -/

/-- `range_range_all_days = es_range_df["Max Range 8:30 - 13"].values`. -/
def range_range_all_days (t : List Row) : List ℚ :=
  (es_range_df t).map (fun r => r.maxRange)

/-- `range_range_es_lower_pp`: the cohort the source feeds into the CPF that
is stored under the key `"Range ES<PP"`; its filter keeps the codes 1 and -1. -/
def range_range_es_lower_pp (t : List Row) : List ℚ :=
  ((es_range_df t).filter (fun r => r.esPP == some 1 || r.esPP == some (-1))).map
    (fun r => r.maxRange)

/-- `range_range_es_higher_pp`: the cohort stored under `"Range ES>PP"`;
its filter keeps the codes 0 and 2. -/
def range_range_es_higher_pp (t : List Row) : List ℚ :=
  ((es_range_df t).filter (fun r => r.esPP == some 0 || r.esPP == some 2)).map
    (fun r => r.maxRange)

/-- `range_es_lower_pp_cpf = __calc_cpf(range_range_es_lower_pp,
int(max(range_range_all_days)), __BIN_RANGE_CPF)`: the CPF whose values fill
the `"Range ES<PP"` table row. -/
def range_es_lower_pp_cpf (t : List Row) : Option Cpf :=
  (range_range_all_days t).max?.bind
    (fun m => calc_cpf (range_range_es_lower_pp t) (truncToZero m) 5)

/-! ### Concrete input tables used to evaluate the engine -/

/-- A sheet with a single deep rebound, located at the Pivot level:
the Resistance deep-rebound cohort is empty. -/
def tableDeepPivotOnly : List Row :=
  [{ ptDeepRebound := some 5, noPerfectRebound := some "PP" }]

/-- A sheet with two range-day reversal sessions opening below the pivot
(code 0) and one downtrend-day reversal session. -/
def tableTwoRangeOneDowntrend : List Row :=
  [{ trend := some 0, hourChange := some 600, esPP := some 0 },
   { trend := some 0, hourChange := some 600, esPP := some 0 },
   { trend := some (-1), hourChange := some 600, esPP := some 1 }]

/-- A sheet with two range-day sessions: one opens below the pivot
(code 0, morning range 3) and one above (code 1, morning range 10). -/
def tableRangeBelowAbove : List Row :=
  [{ trend := some 0, esPP := some 0, maxRange := 3 },
   { trend := some 0, esPP := some 1, maxRange := 10 }]

/-- A sheet with one perfect rebound at the Pivot, one deep rebound at the
Support and one failed rebound at the Resistance. -/
def tableOneTouchPerLevel : List Row :=
  [{ firstRebound := some "PP" },
   { ptDeepRebound := some 5, noPerfectRebound := some "S" },
   { noPerfectRebound := some "R" }]

/-- A sheet with three uptrend sessions of which exactly one reverses. -/
def tableThreeUptrendOneReversal : List Row :=
  [{ trend := some 1 },
   { trend := some 1 },
   { trend := some 1, newTrend := some (-1), hourChange := some 600 }]

/-- A sheet with a single fully blank session row. -/
def tableOneBlankDay : List Row := [{}]

section PyRangeLemmas

theorem pyRange_length (a b step : ℤ) :
    (pyRange a b step).length = pyRangeLen a b step := by
  simp [pyRange]

theorem pyRange_getD (a b step : ℤ) (j : ℕ) (hj : j < pyRangeLen a b step) :
    (pyRange a b step).getD j 0 = a + step * (j : ℤ) := by
  unfold pyRange
  rw [List.getD_eq_getElem?_getD]
  rw [List.getElem?_map]
  rw [List.getElem?_range hj]
  rfl

theorem mem_pyRange {a b step tt : ℤ} :
    tt ∈ pyRange a b step ↔ ∃ k : ℕ, k < pyRangeLen a b step ∧ tt = a + step * (k : ℤ) := by
  unfold pyRange
  simp only [List.mem_map, List.mem_range]
  constructor
  · rintro ⟨k, hk, rfl⟩; exact ⟨k, hk, rfl⟩
  · rintro ⟨k, hk, rfl⟩; exact ⟨k, hk, rfl⟩

/-- Every index below `pyRangeLen` maps to a value below `b`. -/
theorem pyRange_index_lt {a b step : ℤ} (hs : 0 < step) {j : ℕ}
    (hj : j < pyRangeLen a b step) : a + step * (j : ℤ) < b := by
  unfold pyRangeLen at hj
  by_cases hab : a < b ∧ 0 < step
  · rw [if_pos hab] at hj
    set d : ℕ := step.toNat with hd
    set m : ℕ := (b - a - 1).toNat with hm
    have hdz : (d : ℤ) = step := Int.toNat_of_nonneg hs.le
    have hmz : (m : ℤ) = b - a - 1 := Int.toNat_of_nonneg (by omega)
    have hj' : j ≤ m / d := by omega
    have hdd : 0 < d := by omega
    have h1 : m / d * d ≤ m := Nat.div_mul_le_self m d
    have h2 : j * d ≤ m := le_trans (Nat.mul_le_mul_right d hj') h1
    have h2' : (j : ℤ) * (d : ℤ) ≤ (m : ℤ) := by exact_mod_cast h2
    rw [hdz, hmz] at h2'
    nlinarith
  · rw [if_neg hab] at hj; omega

theorem pyRange_mem_lt {a b step : ℤ} (hs : 0 < step) {tt : ℤ}
    (h : tt ∈ pyRange a b step) : tt < b := by
  obtain ⟨k, hk, rfl⟩ := mem_pyRange.1 h
  exact pyRange_index_lt hs hk

/-- Completeness of `pyRange` for `a = step`: exactly the positive multiples
of `step` strictly below `b` occur. -/
theorem mem_pyRange_iff_multiple {b step tt : ℤ} (hs : 0 < step) :
    tt ∈ pyRange step b step ↔ ∃ k : ℕ, 1 ≤ k ∧ tt = step * (k : ℤ) ∧ tt < b := by
  constructor
  · intro h
    obtain ⟨k, hk, rfl⟩ := mem_pyRange.1 h
    refine ⟨k + 1, by omega, by push_cast; ring, pyRange_index_lt hs hk⟩
  · rintro ⟨k, hk1, rfl, hlt⟩
    refine mem_pyRange.2 ⟨k - 1, ?_, ?_⟩
    · have hab : step < b := by nlinarith [Int.le_of_lt hlt]
      unfold pyRangeLen
      rw [if_pos ⟨hab, hs⟩]
      set d : ℕ := step.toNat with hd
      set m : ℕ := (b - step - 1).toNat with hm
      have hdz : (d : ℤ) = step := Int.toNat_of_nonneg hs.le
      have hmz : (m : ℤ) = b - step - 1 := Int.toNat_of_nonneg (by omega)
      have hdd : 0 < d := by omega
      have hmul : (k - 1) * d ≤ m := by
        have : ((k - 1 : ℕ) : ℤ) * (d : ℤ) ≤ (m : ℤ) := by
          have hcast : ((k - 1 : ℕ) : ℤ) = (k : ℤ) - 1 := by omega
          rw [hcast, hdz, hmz]
          nlinarith
        exact_mod_cast this
      have := (Nat.le_div_iff_mul_le hdd).2 hmul
      omega
    · have hcast : ((k - 1 : ℕ) : ℤ) = (k : ℤ) - 1 := by omega
      rw [hcast]; ring

theorem pyRange_pairwise {a b step : ℤ} (hs : 0 < step) :
    (pyRange a b step).Pairwise (· < ·) := by
  unfold pyRange
  refine List.Pairwise.map _ ?_ (List.pairwise_lt_range _)
  intro x y hxy
  have : (x : ℤ) < (y : ℤ) := by exact_mod_cast hxy
  nlinarith

end PyRangeLemmas

section Helpers

theorem mem_rowsWhere {t : List Row} {p : Row → Bool} {i : ℕ} :
    i ∈ rowsWhere t p ↔ i < t.length ∧ p (t.getD i default) = true := by
  simp [rowsWhere, List.mem_filter, List.mem_range]

theorem contains_iff_mem {l : List ℕ} {i : ℕ} : l.contains i = true ↔ i ∈ l := by
  simp [List.contains, List.elem_eq_mem]

theorem rowsWhere_nodup (t : List Row) (p : Row → Bool) : (rowsWhere t p).Nodup :=
  (List.nodup_range t.length).filter _

/-- Counting a list all of whose cells carry one of the three level labels:
the three level counts partition the list. -/
theorem count_three_eq_length (l : List (Option String))
    (h : ∀ c ∈ l, c = some "PP" ∨ c = some "S" ∨ c = some "R") :
    l.count (some "PP") + l.count (some "S") + l.count (some "R") = l.length := by
  induction l with
  | nil => simp
  | cons a tl ih =>
    have ha := h a (List.mem_cons_self a tl)
    have ih' := ih (fun c hc => h c (List.mem_cons_of_mem a hc))
    rcases ha with rfl | rfl | rfl <;> simp [List.count_cons] <;> omega

theorem pct_sum3 (x y z N : ℕ) (hN : 0 < N) (h : x + y + z = N) :
    100 * (x : ℚ) / N + 100 * (y : ℚ) / N + 100 * (z : ℚ) / N = 100 := by
  have hq : (x : ℚ) + y + z = N := by exact_mod_cast h
  have hN' : (N : ℚ) ≠ 0 := Nat.cast_ne_zero.2 hN.ne'
  field_simp
  linarith

theorem pct_sum2 (x y N : ℕ) (hN : 0 < N) (h : x + y = N) :
    100 * (x : ℚ) / N + 100 * (y : ℚ) / N = 100 := by
  have hq : (x : ℚ) + y = N := by exact_mod_cast h
  have hN' : (N : ℚ) ≠ 0 := Nat.cast_ne_zero.2 hN.ne'
  field_simp
  linarith

theorem point_perfect_rebound_length (t : List Row) :
    (point_perfect_rebound t).length = count_perfect_rebound t := by
  simp [point_perfect_rebound, count_perfect_rebound, rows_perfect_rebound]

theorem point_deep_rebound_length (t : List Row) :
    (point_deep_rebound t).length = count_deep_rebound t := by
  simp [point_deep_rebound, count_deep_rebound]

theorem point_no_rebound_length (t : List Row) :
    (point_no_rebound t).length = count_no_rebound t := by
  simp [point_no_rebound, count_no_rebound]

/-- Under the invariant relating the two reversal columns, filtering on a
non-null `Hour trend change` and on a non-null `New trend` agree. -/
theorem filter_reversal_congr (l : List Row)
    (h : ∀ r ∈ l, r.newTrend = none ↔ r.hourChange = none) :
    l.filter (fun r => r.hourChange.isSome) = l.filter (fun r => r.newTrend.isSome) := by
  apply List.filter_congr
  intro r hr
  have hiff := h r hr
  cases hnt : r.newTrend <;> cases hhc : r.hourChange <;> simp_all

end Helpers

/-! ### Claim theorems -/

/-- C1: for every non-empty list of observations, maximum bin edge and
positive bin width, `__calc_cpf` succeeds and returns the threshold sequence
`bin_width, 2*bin_width, ...` (exactly the positive multiples of the bin
width strictly below the maximum edge, in order) closed by the maximum edge
itself as the final threshold, pairing each threshold `x` with
`100 * (number of observations <= x) / (number of observations)`. -/
theorem c1_calc_cpf_contract (data : List ℚ) (bin_max bin_span : ℤ)
    (hd : data ≠ []) (hs : 0 < bin_span) :
    ∃ r : Cpf, calc_cpf data bin_max bin_span = some r ∧
      r.x.getLast? = some bin_max ∧
      (∀ j : ℕ, j + 1 < r.x.length → r.x.getD j 0 = bin_span * ((j : ℤ) + 1)) ∧
      (∀ v : ℤ, v ∈ r.x.dropLast ↔ ∃ k : ℕ, 1 ≤ k ∧ v = bin_span * (k : ℤ) ∧ v < bin_max) ∧
      r.cpf = r.x.map (fun xx => 100 * (countLE data xx : ℚ) / (data.length : ℚ)) := by
  have hde : ¬ data.isEmpty := by simpa using hd
  have hcalc : calc_cpf data bin_max bin_span =
      some ⟨pyRange bin_span bin_max bin_span ++ [bin_max],
        (pyRange bin_span bin_max bin_span ++ [bin_max]).map
          (fun xx => 100 * (countLE data xx : ℚ) / (data.length : ℚ))⟩ := by
    unfold calc_cpf
    rw [if_neg hde]
  refine ⟨_, hcalc, List.getLast?_concat _, ?_, ?_, rfl⟩
  · intro j hj
    have hjlen : j < (pyRange bin_span bin_max bin_span).length := by
      simpa [List.length_append] using hj
    rw [List.getD_append _ _ _ _ hjlen]
    rw [pyRange_length] at hjlen
    rw [pyRange_getD _ _ _ _ hjlen]
    ring
  · intro v
    rw [List.dropLast_concat]
    exact mem_pyRange_iff_multiple hs

/-- Witness for C1 on the observation list `[1, 3]` with maximum edge 7 and
bin width 2. -/
theorem c1_calc_cpf_contract_witness :
    ∃ r : Cpf, calc_cpf [(1 : ℚ), 3] 7 2 = some r ∧
      r.x.getLast? = some 7 ∧
      (∀ j : ℕ, j + 1 < r.x.length → r.x.getD j 0 = 2 * ((j : ℤ) + 1)) ∧
      (∀ v : ℤ, v ∈ r.x.dropLast ↔ ∃ k : ℕ, 1 ≤ k ∧ v = 2 * (k : ℤ) ∧ v < 7) ∧
      r.cpf = r.x.map (fun xx => 100 * (countLE [(1 : ℚ), 3] xx : ℚ) / (([(1 : ℚ), 3]).length : ℚ)) :=
  c1_calc_cpf_contract [(1 : ℚ), 3] 7 2 (by simp) (by norm_num)

theorem countLE_mono (data : List ℚ) {x y : ℤ} (h : x ≤ y) :
    countLE data x ≤ countLE data y := by
  apply List.countP_mono_left
  intro a _ ha
  simp only [decide_eq_true_eq] at ha ⊢
  have hxy : (x : ℚ) ≤ (y : ℚ) := by exact_mod_cast h
  linarith

theorem xcpf_pairwise (bin_max bin_span : ℤ) (hs : 0 < bin_span) :
    (pyRange bin_span bin_max bin_span ++ [bin_max]).Pairwise (· ≤ ·) := by
  rw [List.pairwise_append]
  refine ⟨(pyRange_pairwise hs).imp le_of_lt, by simp, ?_⟩
  intro x hx y hy
  simp only [List.mem_singleton] at hy
  subst hy
  exact (pyRange_mem_lt hs hx).le

/-- C3: every CPF built by `__calc_cpf` or `__calc_cpf_time` on a non-empty
observation list has non-decreasing cumulative percentages, and its final
value is 100 whenever the maximum bin edge bounds every observation
(for the time variant the maximum edge is the last fixed threshold, 15:00). -/
theorem c3_cpf_monotone (data : List ℚ) (tdata : List ℕ) (bin_max bin_span : ℤ)
    (hd : data ≠ []) (htd : tdata ≠ []) (hs : 0 < bin_span) :
    (∃ r : Cpf, calc_cpf data bin_max bin_span = some r ∧
      r.cpf.Pairwise (· ≤ ·) ∧
      ((∀ a ∈ data, a ≤ (bin_max : ℚ)) → r.cpf.getLast? = some 100)) ∧
    (∃ c : List ℚ, calc_cpf_time tdata = some c ∧
      c.Pairwise (· ≤ ·) ∧
      ((∀ a ∈ tdata, a ≤ 900) → c.getLast? = some 100)) := by
  constructor
  · have hde : ¬ data.isEmpty := by simpa using hd
    have hn : 0 < data.length := List.length_pos.2 hd
    have hnq : (0 : ℚ) < (data.length : ℚ) := by exact_mod_cast hn
    have hcalc : calc_cpf data bin_max bin_span =
        some ⟨pyRange bin_span bin_max bin_span ++ [bin_max],
          (pyRange bin_span bin_max bin_span ++ [bin_max]).map
            (fun xx => 100 * (countLE data xx : ℚ) / (data.length : ℚ))⟩ := by
      unfold calc_cpf
      rw [if_neg hde]
    refine ⟨_, hcalc, ?_, ?_⟩
    · refine List.Pairwise.map _ ?_ (xcpf_pairwise bin_max bin_span hs)
      intro a b hab
      have hc : (countLE data a : ℚ) ≤ (countLE data b : ℚ) := by
        exact_mod_cast countLE_mono data hab
      gcongr
    · intro hall
      rw [List.getLast?_map, List.getLast?_concat]
      have hfull : countLE data bin_max = data.length := by
        unfold countLE
        rw [List.countP_eq_length]
        intro a ha
        simpa using hall a ha
      simp only [Option.map_some', hfull]
      congr 1
      field_simp
  · have htde : ¬ tdata.isEmpty := by simpa using htd
    have hn : 0 < tdata.length := List.length_pos.2 htd
    have hnq : (0 : ℚ) < (tdata.length : ℚ) := by exact_mod_cast hn
    have hcalc : calc_cpf_time tdata =
        some (x_cpf_time.map
          (fun xx => 100 * (tdata.countP (fun i => decide (i ≤ xx)) : ℚ) / (tdata.length : ℚ))) := by
      unfold calc_cpf_time
      rw [if_neg htde]
    refine ⟨_, hcalc, ?_, ?_⟩
    · have hxp : x_cpf_time.Pairwise (· ≤ ·) := by
        unfold x_cpf_time
        decide
      refine List.Pairwise.map _ ?_ hxp
      intro a b hab
      have hc : ((tdata.countP (fun i => decide (i ≤ a))) : ℚ)
          ≤ ((tdata.countP (fun i => decide (i ≤ b))) : ℚ) := by
        have := List.countP_mono_left (l := tdata)
          (p := fun i => decide (i ≤ a)) (q := fun i => decide (i ≤ b))
          (fun i _ hi => by
            simp only [decide_eq_true_eq] at hi ⊢
            omega)
        exact_mod_cast this
      gcongr
    · intro hall
      rw [List.getLast?_map]
      have hx900 : x_cpf_time.getLast? = some 900 := by rfl
      rw [hx900]
      have hfull : tdata.countP (fun i => decide (i ≤ 900)) = tdata.length := by
        rw [List.countP_eq_length]
        intro a ha
        simpa using hall a ha
      simp only [Option.map_some', hfull]
      congr 1
      field_simp

/-- Witness for C3 on the observation list `[1, 3]` (maximum edge 7,
bin width 2) and the reversal-hour list `[600]` (10:00). -/
theorem c3_cpf_monotone_witness :
    (∃ r : Cpf, calc_cpf [(1 : ℚ), 3] 7 2 = some r ∧
      r.cpf.Pairwise (· ≤ ·) ∧
      ((∀ a ∈ [(1 : ℚ), 3], a ≤ ((7 : ℤ) : ℚ)) → r.cpf.getLast? = some 100)) ∧
    (∃ c : List ℚ, calc_cpf_time [600] = some c ∧
      c.Pairwise (· ≤ ·) ∧
      ((∀ a ∈ [600], a ≤ 900) → c.getLast? = some 100)) :=
  c3_cpf_monotone [(1 : ℚ), 3] [600] 7 2 (by simp) (by simp) (by norm_num)

/-- C2 is violated by the code: on a sheet whose only deep rebound sits at
the Pivot, the Resistance deep-rebound cohort is empty, and the Resistance
CPF call `__calc_cpf(pt_deep_rebound_resistance, int(max(pt_deep_rebound)))`
divides `0.0` by `0.0`, raising `ZeroDivisionError` (modelled by `none` in
`calc_cpf`) instead of reporting a not-applicable marker. -/
theorem c2_empty_resistance_cohort_raises :
    pt_deep_rebound tableDeepPivotOnly ≠ [] ∧
    pt_deep_rebound_point tableDeepPivotOnly "R" = [] ∧
    cdf_deep_rebound_resistance tableDeepPivotOnly = none := by
  refine ⟨?_, ?_, ?_⟩
  · simp [pt_deep_rebound, rows_deep_rebound, rowsWhere, tableDeepPivotOnly, List.range_succ]
  · simp [pt_deep_rebound_point, rows_deep_rebound, rowsWhere, tableDeepPivotOnly,
      List.range_succ]
  · simp [cdf_deep_rebound_resistance, pt_deep_rebound, pt_deep_rebound_point,
      rows_deep_rebound, rowsWhere, tableDeepPivotOnly, List.range_succ, List.max?,
      calc_cpf]

/-- C4 is violated by the code: with two range-day reversal sessions opening
below the pivot and a single downtrend-day reversal session, line 488 of
`ES_analysis.py` divides the range-day numerator by the downtrend reversal
cohort and reports 200, while the same-cohort denominator the claim demands
yields 100. -/
theorem c4_range_day_denominator_defect :
    pct_range_reversal_lower_pp tableTwoRangeOneDowntrend = 200 ∧
    100 * ((range_then_reversal_es_lower_pp tableTwoRangeOneDowntrend).length : ℚ)
      / ((es_range_then_reversal_df tableTwoRangeOneDowntrend).length : ℚ) = 100 := by
  constructor <;>
    norm_num [pct_range_reversal_lower_pp, range_then_reversal_es_lower_pp,
      es_range_then_reversal_df, es_range_df, es_downtrend_then_reversal_df,
      es_downtrend_df, tableTwoRangeOneDowntrend, List.filter]

/-- C5 is violated by the code: in `__analyze_range` the cohort feeding the
table row labelled `"Range ES<PP"` keeps the sessions whose `ES & PP` code is
1 or -1 (open above the pivot), and the `"Range ES>PP"` row keeps codes 0 and
2 — the opposite of the two-bucket split used by the reversal analyzer. On a
sheet with one session of each bucket, the `ES<PP`-labelled cohort contains
exactly the open-above-pivot morning range 10, and its CPF reports 0% at the
threshold 5. -/
theorem c5_range_bucket_swap :
    range_range_es_lower_pp tableRangeBelowAbove = [10] ∧
    range_range_es_higher_pp tableRangeBelowAbove = [3] ∧
    range_es_lower_pp_cpf tableRangeBelowAbove = some ⟨[5, 10], [0, 100]⟩ := by
  refine ⟨?_, ?_, ?_⟩
  · simp +decide [range_range_es_lower_pp, es_range_df, tableRangeBelowAbove, List.filter]
  · simp +decide [range_range_es_higher_pp, es_range_df, tableRangeBelowAbove, List.filter]
  · simp +decide [range_es_lower_pp_cpf, range_range_all_days, range_range_es_lower_pp,
      es_range_df, tableRangeBelowAbove, List.filter, List.max?, truncToZero,
      calc_cpf, pyRange, pyRangeLen, countLE, List.range_succ]
    norm_num
    decide

/-- C6: a row is classified as a failed rebound exactly when its
`No perfect rebound` cell is non-null and the row is not in the deep-rebound
row set, and consequently the failed-rebound count is the number of rows with
a non-null `No perfect rebound` cell minus the number of rows that also carry
a non-null deep-rebound distance. -/
theorem c6_failed_rebound_classification (t : List Row) (i : ℕ) :
    (i ∈ rows_no_rebound t ↔
      i < t.length ∧ (t.getD i default).noPerfectRebound.isSome = true
        ∧ i ∉ rows_deep_rebound t) ∧
    (rows_no_rebound t).length =
      (rows_no_perfect_rebound t).length -
        (rowsWhere t (fun r => r.noPerfectRebound.isSome && r.ptDeepRebound.isSome)).length := by
  constructor
  · constructor
    · intro h
      obtain ⟨hmem, hcond⟩ := List.mem_filter.1 h
      obtain ⟨hlt, hsome⟩ := mem_rowsWhere.1 hmem
      refine ⟨hlt, hsome, ?_⟩
      simpa using hcond
    · rintro ⟨hlt, hsome, hnd⟩
      refine List.mem_filter.2 ⟨mem_rowsWhere.2 ⟨hlt, hsome⟩, ?_⟩
      simpa using hnd
  · have hsplit := List.length_eq_length_filter_add
      (l := rows_no_perfect_rebound t)
      (fun i => !((rows_deep_rebound t).contains i))
    simp only [Bool.not_not] at hsplit
    have hboth : (rows_no_perfect_rebound t).filter
          (fun i => (rows_deep_rebound t).contains i)
        = rowsWhere t (fun r => r.noPerfectRebound.isSome && r.ptDeepRebound.isSome) := by
      unfold rows_no_perfect_rebound rowsWhere
      rw [List.filter_filter]
      apply List.filter_congr
      intro j hj
      have hjlt : j < t.length := List.mem_range.1 hj
      have hcd : ((rows_deep_rebound t).contains j = true)
          ↔ ((t.getD j default).ptDeepRebound.isSome = true) := by
        rw [contains_iff_mem]
        simp only [rows_deep_rebound, mem_rowsWhere]
        simp [hjlt]
      have hcd' : (rows_deep_rebound t).contains j
          = (t.getD j default).ptDeepRebound.isSome := Bool.eq_iff_iff.2 hcd
      rw [hcd', Bool.and_comm]
    rw [hboth] at hsplit
    unfold rows_no_rebound
    omega

/-- C7: assuming every recorded touch value is one of the levels PP, S, R
and every touch-category count is non-zero, the three per-level point shares
(`pct point`) sum to 100, and for each classification kind (perfect, deep,
no rebound) the three per-level shares of that kind sum to 100: the three
level groups partition each touch list. -/
theorem c7_level_shares_sum_to_100 (t : List Row)
    (hperf : ∀ c ∈ point_perfect_rebound t, c = some "PP" ∨ c = some "S" ∨ c = some "R")
    (hdeep : ∀ c ∈ point_deep_rebound t, c = some "PP" ∨ c = some "S" ∨ c = some "R")
    (hno : ∀ c ∈ point_no_rebound t, c = some "PP" ∨ c = some "S" ∨ c = some "R")
    (h1 : 0 < count_perfect_rebound t) (h2 : 0 < count_deep_rebound t)
    (h3 : 0 < count_no_rebound t) :
    pct_point_at t "PP" + pct_point_at t "S" + pct_point_at t "R" = 100 ∧
    pct_level_perfect_rebound t "PP" + pct_level_perfect_rebound t "S"
      + pct_level_perfect_rebound t "R" = 100 ∧
    pct_level_deep_rebound t "PP" + pct_level_deep_rebound t "S"
      + pct_level_deep_rebound t "R" = 100 ∧
    pct_level_no_rebound t "PP" + pct_level_no_rebound t "S"
      + pct_level_no_rebound t "R" = 100 := by
  have hp := count_three_eq_length _ hperf
  have hdp := count_three_eq_length _ hdeep
  have hnp := count_three_eq_length _ hno
  rw [point_perfect_rebound_length] at hp
  rw [point_deep_rebound_length] at hdp
  rw [point_no_rebound_length] at hnp
  have hpts : 0 < count_points t := by
    simp only [count_points, count_rebound]
    omega
  refine ⟨?_, ?_, ?_, ?_⟩
  · simp only [pct_point_at]
    apply pct_sum3 _ _ _ _ hpts
    simp only [count_total_at, count_points, count_rebound, count_point] at *
    omega
  · simp only [pct_level_perfect_rebound]
    exact pct_sum3 _ _ _ _ h1 (by simp only [count_point] at *; omega)
  · simp only [pct_level_deep_rebound]
    exact pct_sum3 _ _ _ _ h2 (by simp only [count_point] at *; omega)
  · simp only [pct_level_no_rebound]
    exact pct_sum3 _ _ _ _ h3 (by simp only [count_point] at *; omega)

/-- Witness for C7 on a sheet with one perfect rebound (Pivot), one deep
rebound (Support) and one failed rebound (Resistance). -/
theorem c7_level_shares_sum_to_100_witness :
    pct_point_at tableOneTouchPerLevel "PP" + pct_point_at tableOneTouchPerLevel "S"
      + pct_point_at tableOneTouchPerLevel "R" = 100 ∧
    pct_level_perfect_rebound tableOneTouchPerLevel "PP"
      + pct_level_perfect_rebound tableOneTouchPerLevel "S"
      + pct_level_perfect_rebound tableOneTouchPerLevel "R" = 100 ∧
    pct_level_deep_rebound tableOneTouchPerLevel "PP"
      + pct_level_deep_rebound tableOneTouchPerLevel "S"
      + pct_level_deep_rebound tableOneTouchPerLevel "R" = 100 ∧
    pct_level_no_rebound tableOneTouchPerLevel "PP"
      + pct_level_no_rebound tableOneTouchPerLevel "S"
      + pct_level_no_rebound tableOneTouchPerLevel "R" = 100 :=
  c7_level_shares_sum_to_100 tableOneTouchPerLevel (by decide) (by decide) (by decide)
    (by decide) (by decide) (by decide)

/-- C8: under the invariant that `New trend` is non-null iff
`Hour trend change` is non-null, the per-class `% with reversal` statistic
equals 100 times the number of sessions of the class with a reversal
(non-null `New trend`) over the number of sessions of the class. -/
theorem c8_pct_with_reversal (t : List Row)
    (hinv : ∀ r ∈ t, r.newTrend = none ↔ r.hourChange = none) :
    (0 < (es_uptrend_df t).length →
      pct_uptrend_with_reversal t =
        100 * (((es_uptrend_df t).filter (fun r => r.newTrend.isSome)).length : ℚ)
          / ((es_uptrend_df t).length : ℚ)) ∧
    (0 < (es_downtrend_df t).length →
      pct_downtrend_with_reversal t =
        100 * (((es_downtrend_df t).filter (fun r => r.newTrend.isSome)).length : ℚ)
          / ((es_downtrend_df t).length : ℚ)) ∧
    (0 < (es_range_df t).length →
      pct_range_with_reversal t =
        100 * (((es_range_df t).filter (fun r => r.newTrend.isSome)).length : ℚ)
          / ((es_range_df t).length : ℚ)) := by
  have hup := filter_reversal_congr (es_uptrend_df t)
    (fun r hr => hinv r (List.mem_of_mem_filter hr))
  have hdown := filter_reversal_congr (es_downtrend_df t)
    (fun r hr => hinv r (List.mem_of_mem_filter hr))
  have hrange := filter_reversal_congr (es_range_df t)
    (fun r hr => hinv r (List.mem_of_mem_filter hr))
  refine ⟨fun _ => ?_, fun _ => ?_, fun _ => ?_⟩
  · simp only [pct_uptrend_with_reversal, es_uptrend_then_reversal_df, hup]
  · simp only [pct_downtrend_with_reversal, es_downtrend_then_reversal_df, hdown]
  · simp only [pct_range_with_reversal, es_range_then_reversal_df, hrange]

/-- Witness for C8 on a sheet with three uptrend sessions of which exactly
one reverses: the uptrend percentage with reversal is 100/3, reported as
33.3 once passed through the rounding helper. -/
theorem c8_pct_with_reversal_witness :
    ((0 < (es_uptrend_df tableThreeUptrendOneReversal).length →
      pct_uptrend_with_reversal tableThreeUptrendOneReversal =
        100 * (((es_uptrend_df tableThreeUptrendOneReversal).filter
            (fun r => r.newTrend.isSome)).length : ℚ)
          / ((es_uptrend_df tableThreeUptrendOneReversal).length : ℚ)) ∧
    (0 < (es_downtrend_df tableThreeUptrendOneReversal).length →
      pct_downtrend_with_reversal tableThreeUptrendOneReversal =
        100 * (((es_downtrend_df tableThreeUptrendOneReversal).filter
            (fun r => r.newTrend.isSome)).length : ℚ)
          / ((es_downtrend_df tableThreeUptrendOneReversal).length : ℚ)) ∧
    (0 < (es_range_df tableThreeUptrendOneReversal).length →
      pct_range_with_reversal tableThreeUptrendOneReversal =
        100 * (((es_range_df tableThreeUptrendOneReversal).filter
            (fun r => r.newTrend.isSome)).length : ℚ)
          / ((es_range_df tableThreeUptrendOneReversal).length : ℚ))) ∧
    pct_uptrend_with_reversal tableThreeUptrendOneReversal = 100 / 3 ∧
    es_round (pct_uptrend_with_reversal tableThreeUptrendOneReversal) = 333 / 10 := by
  have hval : pct_uptrend_with_reversal tableThreeUptrendOneReversal = 100 / 3 := by
    simp +decide [pct_uptrend_with_reversal, es_uptrend_then_reversal_df, es_uptrend_df,
      tableThreeUptrendOneReversal]
  refine ⟨c8_pct_with_reversal tableThreeUptrendOneReversal (by decide), hval, ?_⟩
  rw [hval]
  norm_num [es_round, truncToZero]

theorem length_filter_split (l : List ℕ) (p : ℕ → Bool) :
    (l.filter p).length + (l.filter (fun a => !(p a))).length = l.length := by
  induction l with
  | nil => rfl
  | cons a tl ih => cases hpa : p a <;> simp [List.filter_cons, hpa] <;> omega

theorem mem_days_with_demark_lt (t : List Row) (i : ℕ)
    (h : i ∈ days_with_demark t) : i < t.length := by
  simp only [days_with_demark, List.mem_dedup, List.mem_append, days_with_rebound] at h
  rcases h with (h | h) | h
  · exact (mem_rowsWhere.1 h).1
  · exact (mem_rowsWhere.1 h).1
  · exact (mem_rowsWhere.1 (List.mem_of_mem_filter h)).1

/-- C10: the Demark-day and no-Demark-day index sets are disjoint and cover
all row indexes, so the two reported day percentages sum to exactly 100. -/
theorem c10_demark_partition (t : List Row) (h : 0 < t.length) :
    (∀ i, ¬ (i ∈ days_with_demark t ∧ i ∈ days_with_no_demark t)) ∧
    (∀ i, i < t.length → i ∈ days_with_demark t ∨ i ∈ days_with_no_demark t) ∧
    pct_days_with_demark t + pct_days_no_demark t = 100 := by
  have hmemno : ∀ i, i ∈ days_with_no_demark t ↔ i < t.length ∧ i ∉ days_with_demark t := by
    intro i
    simp [days_with_no_demark, List.mem_filter, List.mem_range]
  have hlen : (days_with_demark t).length + (days_with_no_demark t).length = t.length := by
    have hsplit := length_filter_split (List.range t.length)
      (fun i => (days_with_demark t).contains i)
    have hperm : List.Perm
        ((List.range t.length).filter (fun i => (days_with_demark t).contains i))
        (days_with_demark t) := by
      refine (List.perm_ext_iff_of_nodup ((List.nodup_range _).filter _) ?_).2 ?_
      · simp only [days_with_demark]
        exact List.nodup_dedup _
      intro a
      simp only [List.mem_filter, List.mem_range]
      constructor
      · rintro ⟨_, hc⟩
        exact contains_iff_mem.1 hc
      · intro ha
        exact ⟨mem_days_with_demark_lt t a ha, contains_iff_mem.2 ha⟩
    have hlen1 := hperm.length_eq
    have h2 : (List.range t.length).filter
        (fun i => !((days_with_demark t).contains i)) = days_with_no_demark t := rfl
    rw [h2] at hsplit
    simp only [List.length_range] at hsplit
    omega
  refine ⟨?_, ?_, ?_⟩
  · rintro i ⟨h1, h2⟩
    exact ((hmemno i).1 h2).2 h1
  · intro i hi
    by_cases hd : i ∈ days_with_demark t
    · exact Or.inl hd
    · exact Or.inr ((hmemno i).2 ⟨hi, hd⟩)
  · simp only [pct_days_with_demark, pct_days_no_demark]
    exact pct_sum2 _ _ _ h hlen

/-- Witness for C10 on a sheet with a single blank session row. -/
theorem c10_demark_partition_witness :
    (∀ i, ¬ (i ∈ days_with_demark tableOneBlankDay ∧ i ∈ days_with_no_demark tableOneBlankDay)) ∧
    (∀ i, i < tableOneBlankDay.length →
      i ∈ days_with_demark tableOneBlankDay ∨ i ∈ days_with_no_demark tableOneBlankDay) ∧
    pct_days_with_demark tableOneBlankDay + pct_days_no_demark tableOneBlankDay = 100 :=
  c10_demark_partition tableOneBlankDay (by decide)

/-- C9: for every non-negative number, the rounding helper
`__round(n) = int(n * 10) / 10` truncates toward zero at one decimal place
(it equals the floor of `10 n` divided by 10) and never rounds up: its
result never exceeds its argument. -/
theorem c9_round_truncates (q : ℚ) (h : 0 ≤ q) :
    es_round q = ((⌊q * 10⌋ : ℤ) : ℚ) / 10 ∧ es_round q ≤ q := by
  have h10 : (0 : ℚ) ≤ q * 10 := by positivity
  have heq : es_round q = ((⌊q * 10⌋ : ℤ) : ℚ) / 10 := by
    unfold es_round truncToZero
    rw [if_pos h10]
  refine ⟨heq, ?_⟩
  rw [heq, div_le_iff₀ (by norm_num : (0 : ℚ) < 10)]
  exact Int.floor_le _

/-- Witness for C9 at 33.39, which the helper reports as 33.3, not 33.4. -/
theorem c9_round_truncates_witness :
    (0 : ℚ) ≤ 3339 / 100 ∧ es_round (3339 / 100) ≤ 3339 / 100 ∧
    es_round (3339 / 100) = 333 / 10 :=
  ⟨by norm_num, (c9_round_truncates (3339 / 100) (by norm_num)).2,
    by norm_num [es_round, truncToZero]⟩

end ES
